import Mathlib

/-!
Verification development for the `starlight-plugin-icons` repository.

The TypeScript sources (`material-icons.ts` and the safelist generator) are
shallowly embedded below.  JavaScript strings are modelled as Lean `String`s,
with the string primitives the code uses (`toLowerCase`, `trim`, `split`,
`startsWith`, `endsWith`, `replace`, `substring`) re-implemented structurally
over the underlying character list so that every definition evaluates by
kernel reduction.  JavaScript records (`Record<string, string>`) are modelled
as association lists; a record access used in a boolean position follows the
JS truthiness rule: the access produces a value exactly when the key is
present and the value is a non-empty string.  `null`/`undefined` results are
modelled with `Option`.  Asynchronous effects (network fetches, file reads
and writes) are modelled by passing the relevant environment or state
explicitly.
-/

namespace StarlightIcons

/-- Whitespace as matched by the regexes and `trim` calls in the source
(restricted to the ASCII whitespace characters that can occur in the
scanned content). -/
def jsIsWhitespace (c : Char) : Bool :=
  c = ' ' || c = '\t' || c = '\n' || c = '\r' || c = '\x0b' || c = '\x0c'

/-- JS `String.prototype.trim`. -/
def jsTrim (s : String) : String :=
  ⟨((s.data.dropWhile jsIsWhitespace).reverse.dropWhile jsIsWhitespace).reverse⟩

/-- ASCII lowercasing, as applied by `toLowerCase()` to the names this
plugin handles. -/
def jsToLower (s : String) : String :=
  ⟨s.data.map Char.toLower⟩

/-- Split a character list at every occurrence of `c` (JS
`String.prototype.split` with a single-character separator). -/
def splitOnCharAux (c : Char) : List Char → List Char → List (List Char)
  | [], acc => [acc.reverse]
  | x :: xs, acc =>
    if x = c then acc.reverse :: splitOnCharAux c xs []
    else splitOnCharAux c xs (x :: acc)

/-- JS `s.split(c)` for a one-character separator: always returns a
non-empty list; `"".split(c) = [""]`. -/
def jsSplit (s : String) (c : Char) : List String :=
  (splitOnCharAux c s.data []).map (fun l => ⟨l⟩)

/-- Does the first list occur as an initial segment of the second? -/
def listIsInit : List Char → List Char → Bool
  | [], _ => true
  | _ :: _, [] => false
  | p :: ps, x :: xs => p = x && listIsInit ps xs

/-- JS `s.startsWith(pat)`. -/
def jsStartsWith (s pat : String) : Bool :=
  listIsInit pat.data s.data

/-- JS `s.endsWith(pat)`. -/
def jsEndsWith (s pat : String) : Bool :=
  listIsInit pat.data.reverse s.data.reverse

/-- JS `s.includes(c)` for a single character. -/
def jsContainsChar (s : String) (c : Char) : Bool :=
  s.data.contains c

/-- JS `s.substring(n)` (clamped, like the original). -/
def jsDrop (s : String) (n : Nat) : String :=
  ⟨s.data.drop n⟩

/-- JS `array.join('.')` on string parts. -/
def jsJoinDot (parts : List String) : String :=
  ⟨List.intercalate ['.'] (parts.map String.data)⟩

/-- JS `s.replace(/_/g, '-')`. -/
def underscoreToHyphen (s : String) : String :=
  ⟨s.data.map (fun c => if c = '_' then '-' else c)⟩

/-- JS `s.replace(/[\\/]+$/, '')`: drop the trailing run of path
separators. -/
def dropTrailingSeps (s : String) : String :=
  ⟨(s.data.reverse.dropWhile (fun c => c = '/' || c = '\\')).reverse⟩

/-- A JS `Record<string, string>` as an association list; plain access
returns the first binding for the key. -/
def recGet (m : List (String × String)) (k : String) : Option String :=
  (m.find? (fun p => p.1 = k)).map (fun p => p.2)

/-- Truthy record access: `m[k]` used as a condition is the value exactly
when the key is present with a non-empty value (JS truthiness on
strings). -/
def recGetT (m : List (String × String)) (k : String) : Option String :=
  match recGet m k with
  | some v => if v = "" then none else some v
  | none => none

/-- JS truthiness of a `string | null | undefined` value. -/
def truthyStr : Option String → Bool
  | some s => s ≠ ""
  | none => false

/-- The `LanguageMap` JSON table (`language-map.json`). -/
structure LanguageMap where
  fileExtensions : List (String × String)
deriving DecidableEq, Repr

/-- The `MaterialIcons` JSON table (`material-icons.json`).
`iconDefinitions` maps icon names to opaque definitions and is only ever
used for truthy membership tests, so it is modelled as the list of icon
names whose definition is present (and truthy). -/
structure MaterialIcons where
  iconDefinitions : List String
  fileExtensions : List (String × String)
  fileNames : List (String × String)
  folderNames : List (String × String)
  folderNamesExpanded : List (String × String)
  languageIds : List (String × String)
deriving DecidableEq, Repr

/-- The pair of tables returned by the icon data store. -/
structure MaterialIconsData where
  languageMap : LanguageMap
  materialIcons : MaterialIcons
deriving DecidableEq, Repr

/-- `fileName.includes('/') ? fileName.split('/').pop()! : fileName`. -/
def justFileName (fileName : String) : String :=
  if jsContainsChar fileName '/' then (jsSplit fileName '/').getLastD ""
  else fileName

/-- The lowercased base name used for every file lookup. -/
def lowerBaseName (fileName : String) : String :=
  jsToLower (justFileName fileName)

/-- `lower.split('.').slice(1).join('.')`: everything after the first dot. -/
def longExtension (lower : String) : String :=
  jsJoinDot ((jsSplit lower '.').drop 1)

/-- `lower.split('.').pop() || ''`: the text after the last dot. -/
def shortExtension (lower : String) : String :=
  (jsSplit lower '.').getLastD ""

/-- One step of the custom-override key loop
(`if (key && customIcons[key])`): a key is skipped when it is the empty
string or its override value is not truthy. -/
def keyHitCI (ci : List (String × String)) (k : String) : Option String :=
  if k = "" then none else recGetT ci k

/-- The custom-override key loop of `resolveIcon`: try the lowercase base
name, then the long extension, then the short extension. -/
def resolveCustomFile (ci : List (String × String)) (fileName : String) :
    Option String :=
  match keyHitCI ci (lowerBaseName fileName) with
  | some v => some v
  | none =>
    match keyHitCI ci (longExtension (lowerBaseName fileName)) with
    | some v => some v
    | none => keyHitCI ci (shortExtension (lowerBaseName fileName))

/-- The custom-override stage of `resolveIcon`
(`if (fileName && customIcons) ...`). -/
def customStage (customIcons : Option (List (String × String)))
    (fileName : Option String) : Option String :=
  match fileName, customIcons with
  | some fn, some ci => if fn = "" then none else resolveCustomFile ci fn
  | _, _ => none

/-- The icon class constructed from a table icon name. -/
def materialClass (iconName : String) : String :=
  "i-material-icon-theme:" ++ underscoreToHyphen iconName

/-- One probe of the `getIconClass` loop: a truthy lookup whose icon name
also has a (truthy) entry in `iconDefinitions` yields the icon class. -/
def probePair (defs : List String) (lookup : List (String × String))
    (key : String) : Option String :=
  match recGetT lookup key with
  | some iconName =>
    if defs.contains iconName then some (materialClass iconName) else none
  | none => none

/-- The `.svelte.js` / `.svelte.ts` special cases of `resolveIcon`. -/
def svelteStage (fileName : Option String) : Option String :=
  match fileName with
  | some fn =>
    if jsEndsWith fn ".svelte.js" then some "i-starlight-plugin-icons:svelte-js"
    else if jsEndsWith fn ".svelte.ts" then some "i-starlight-plugin-icons:svelte-ts"
    else none
  | none => none

/-- The `pairs` array of `resolveIcon`, unrolled: exact file name in
`fileNames`, long extension in `fileExtensions`, short extension in
`fileExtensions`, short extension in the language map's
`fileExtensions`. -/
def fileProbe (d : MaterialIconsData) (lower : String) : Option String :=
  match probePair d.materialIcons.iconDefinitions d.materialIcons.fileNames lower with
  | some c => some c
  | none =>
    match probePair d.materialIcons.iconDefinitions d.materialIcons.fileExtensions
        (longExtension lower) with
    | some c => some c
    | none =>
      match probePair d.materialIcons.iconDefinitions d.materialIcons.fileExtensions
          (shortExtension lower) with
      | some c => some c
      | none =>
        probePair d.materialIcons.iconDefinitions d.languageMap.fileExtensions
          (shortExtension lower)

/-- The `if (fileName) { ... }` block of `resolveIcon`: the four table
probes followed by the dot-prefixed retry for names not starting with a
dot. -/
def fileStage (d : MaterialIconsData) (fileName : Option String) : Option String :=
  match fileName with
  | none => none
  | some fn =>
    if fn = "" then none
    else
      let lower := lowerBaseName fn
      match fileProbe d lower with
      | some c => some c
      | none =>
        if jsStartsWith lower "." then none
        else
          probePair d.materialIcons.iconDefinitions d.materialIcons.fileNames
            ("." ++ lower)

/-- The `if (language && materialIcons.languageIds[language]) { ... }`
block of `resolveIcon`. -/
def langStage (d : MaterialIconsData) (language : Option String) : Option String :=
  match language with
  | some l =>
    if l = "" then none
    else probePair d.materialIcons.iconDefinitions d.materialIcons.languageIds l
  | none => none

/-- `resolveIcon` from `material-icons.ts` (the inner async closure,
flattened): the custom-override map and the data-store result are passed
explicitly.  Returns `none` for a JS `null` result. -/
def resolveIcon (customIcons : Option (List (String × String)))
    (fileName language : Option String) (data : Option MaterialIconsData) :
    Option String :=
  match customStage customIcons fileName with
  | some v => some v
  | none =>
    match data with
    | none => none
    | some d =>
      if !truthyStr fileName && !truthyStr language then none
      else
        match svelteStage fileName with
        | some c => some c
        | none =>
          match fileStage d fileName with
          | some c => some c
          | none =>
            match langStage d language with
            | some c => some c
            | none => some "i-material-icon-theme:document"

/-- `folderName.trim().replace(/[\\/]+$/, '').toLowerCase()`. -/
def normFolderName (folderName : String) : String :=
  jsToLower (dropTrailingSeps (jsTrim folderName))

/-- The folder-table probe of `resolveFolderIcon`: a truthy entry in the
expanded (open) or plain (closed) folder-name table whose icon name has a
definition yields the icon class. -/
def folderStage (d : MaterialIconsData) (isOpen : Bool) (lower : String) :
    Option String :=
  match recGetT (if isOpen then d.materialIcons.folderNamesExpanded
                 else d.materialIcons.folderNames) lower with
  | some iconName =>
    if d.materialIcons.iconDefinitions.contains iconName then
      some (materialClass iconName)
    else none
  | none => none

/-- The custom-override stage of `resolveFolderIcon`: the override map is
probed at `folder:<name>` or `folder-open:<name>` according to the
open/closed flag. -/
def customFolderStage (customIcons : Option (List (String × String)))
    (isOpen : Bool) (lower : String) : Option String :=
  match customIcons with
  | some ci =>
    recGetT ci ((if isOpen then "folder-open" else "folder") ++ ":" ++ lower)
  | none => none

/-- `resolveFolderIcon` from `material-icons.ts` (the inner async closure,
flattened).  Returns `none` for a JS `undefined` result. -/
def resolveFolderIcon (customIcons : Option (List (String × String)))
    (folderName : String) (isOpen : Bool) (data : Option MaterialIconsData) :
    Option String :=
  let lower := normFolderName folderName
  match customFolderStage customIcons isOpen lower with
  | some v => some v
  | none =>
    match data with
    | none => none
    | some d =>
      match folderStage d isOpen lower with
      | some c => some c
      | none =>
        some (if isOpen then "i-starlight-plugin-icons:folder-open"
              else "i-starlight-plugin-icons:folder")

/-- `getIconDetails` from `material-icons.ts`: a `'sh'` language tag
short-circuits to JS `null` (here `none`); otherwise the resolver is run on
the title and language and the pair `(iconClass, language)` is returned. -/
def getIconDetails (customIcons : Option (List (String × String)))
    (title language : Option String) (data : Option MaterialIconsData) :
    Option (Option String × Option String) :=
  if language = some "sh" then none
  else some (resolveIcon customIcons title language data, language)

/-- The icon class a single fenced code block contributes to the safelist:
`generateSafelist` adds `iconDetails.iconClass` only when `getIconDetails`
returned an object and the class is truthy. -/
def codeBlockContribution (customIcons : Option (List (String × String)))
    (data : Option MaterialIconsData) (title language : Option String) :
    Option String :=
  match getIconDetails customIcons title language data with
  | none => none
  | some details =>
    match details.1 with
    | some c => if c = "" then none else some c
    | none => none

/-- One line of a `<FileTree>` body after the scanner's preprocessing:
the length of the leading whitespace run and the trimmed content. -/
structure TreeLine where
  indentation : Nat
  content : String
deriving DecidableEq, Repr

/-- The per-line preprocessing of the scanner
(`indentation: line.match(/^\s*/)[0].length, content: line.trim()`). -/
def parseTreeLine (line : String) : TreeLine :=
  { indentation := (line.data.takeWhile jsIsWhitespace).length
    content := jsTrim line }

/-- `fileTreeContent.trim().split('\n')` followed by the per-line
preprocessing. -/
def parseTreeLines (body : String) : List TreeLine :=
  (jsSplit (jsTrim body) '\n').map parseTreeLine

/-- Strip a surrounding emphasis marker: the regex
`^M(.+)M$` (with `.` never matching a newline, which cannot occur in a
single tree line) rewrites to the inner group exactly when the name starts
and ends with the marker and is strictly longer than the two markers. -/
def stripWrap (marker name : String) : String :=
  if jsStartsWith name marker && jsEndsWith name marker
      && 2 * marker.data.length + 1 ≤ name.data.length then
    ⟨((name.data.drop marker.data.length).reverse.drop marker.data.length).reverse⟩
  else name

/-- `normalizeFileTreeEntry` from the safelist generator: remove all
backticks, trim, then strip `**`, `__`, `*`, `_` wrappers in that order. -/
def normalizeFileTreeEntry (input : String) : String :=
  let name := jsTrim ⟨input.data.filter (fun c => c ≠ '\x60')⟩
  stripWrap "_" (stripWrap "*" (stripWrap "__" (stripWrap "**" name)))

/-- `line.content.substring(2).split(' ')[0] ?? ''`: the raw entry text of
a qualifying list line. -/
def rawEntryOf (content : String) : String :=
  (jsSplit (jsDrop content 2) ' ').headD ""

/-- The corrupted-encoding ellipsis literal from the source. -/
def mojibakeEllipsis : String := "â€¦"

/-- The directory heuristic of the scanner loop: the normalized entry name
ends with `/`, or the immediately following line of the block (whether or
not that line is itself skipped) is indented strictly deeper. -/
def isDirLine (lines : List TreeLine) (i : Nat) (line : TreeLine)
    (entryName : String) : Bool :=
  jsEndsWith entryName "/" ||
    (match lines[i + 1]? with
     | some nl => decide (line.indentation < nl.indentation)
     | none => false)

/-- One iteration of the scanner's tree loop, up to classification:
`none` when the line is skipped (not a `- ` list line, or an empty or
ellipsis entry name), otherwise the normalized entry name together with
the directory flag. -/
def classifyLine (lines : List TreeLine) (i : Nat) : Option (String × Bool) :=
  match lines[i]? with
  | none => none
  | some line =>
    if !jsStartsWith line.content "- " then none
    else
      let entryName := normalizeFileTreeEntry (rawEntryOf line.content)
      if entryName = "" ∨ entryName = "..." ∨ entryName = mojibakeEllipsis then none
      else some (entryName, isDirLine lines i line entryName)

/-- The icon classes one tree line adds to `usedIcons`: a directory entry
adds the truthy closed and open folder icons, a file entry adds the truthy
resolved file icon. -/
def treeLineIcons (customIcons : Option (List (String × String)))
    (data : Option MaterialIconsData) (lines : List TreeLine) (i : Nat) :
    List String :=
  match classifyLine lines i with
  | none => []
  | some (entryName, isDir) =>
    if isDir then
      let folderName := dropTrailingSeps (jsTrim entryName)
      let closed := resolveFolderIcon customIcons folderName false data
      let opened := resolveFolderIcon customIcons folderName true data
      (match closed with
       | some c => if c = "" then [] else [c]
       | none => []) ++
      (match opened with
       | some c => if c = "" then [] else [c]
       | none => [])
    else
      match resolveIcon customIcons (some entryName) none data with
      | some c => if c = "" then [] else [c]
      | none => []

/-- Lexicographic comparison of strings by character code, as used by the
default JS `Array.prototype.sort` on the safelist (all safelist entries
are basic-plane strings, where code points and UTF-16 units agree). -/
def strLe (a b : String) : Bool :=
  go a.data b.data
where
  go : List Char → List Char → Bool
    | [], _ => true
    | _ :: _, [] => false
    | x :: xs, y :: ys => if x = y then go xs ys else decide (x.val ≤ y.val)

/-- Insert into a sorted duplicate-free list, dropping duplicates. -/
def insertDedup (x : String) : List String → List String
  | [] => [x]
  | y :: ys =>
    if x = y then y :: ys
    else if strLe x y then x :: y :: ys
    else y :: insertDedup x ys

/-- `[...usedIcons].sort()`: the accumulated icon classes as a sorted
duplicate-free list (the `Set` removes duplicates, `sort()` orders). -/
def sortedSafelist : List String → List String
  | [] => []
  | x :: xs => insertDedup x (sortedSafelist xs)

/-- Escape one character as `JSON.stringify` does for the characters that
can occur in icon-class strings. -/
def jsonEscapeChar (c : Char) : List Char :=
  if c = '"' then ['\\', '"']
  else if c = '\\' then ['\\', '\\']
  else if c = '\n' then ['\\', 'n']
  else if c = '\r' then ['\\', 'r']
  else if c = '\t' then ['\\', 't']
  else [c]

/-- A JSON string literal. -/
def jsonString (s : String) : List Char :=
  '"' :: (s.data.flatMap jsonEscapeChar) ++ ['"']

/-- `JSON.stringify(list, null, 2)` for a list of strings: `[]` when
empty, otherwise one two-space-indented element per line. -/
def jsonStringifyList (l : List String) : String :=
  match l with
  | [] => "[]"
  | _ =>
    ⟨('[' :: '\n' :: List.intercalate [',', '\n']
        (l.map (fun s => ' ' :: ' ' :: jsonString s))) ++ ['\n', ']']⟩

/-- The serialized safelist (`newSafelistJSON`). -/
def serializeSafelist (icons : List String) : String :=
  jsonStringifyList (sortedSafelist icons)

/-- The observable outcome of the persistence step of `generateSafelist`:
the returned boolean and the safelist file contents after the call. -/
structure SafelistResult where
  changed : Bool
  file : Option String
deriving DecidableEq, Repr

/-- The final compare-and-write step of `generateSafelist`, with the
previous contents of `safelist.json` passed explicitly (`none` when the
read fails because the file is missing): identical contents report
unchanged with no write; a missing file and an empty safelist report
unchanged and create no file; otherwise the new serialization is written
and `true` is returned. -/
def runSafelist (icons : List String) (prevFile : Option String) :
    SafelistResult :=
  let json := serializeSafelist icons
  match prevFile with
  | some cur => if cur = json then ⟨false, some cur⟩ else ⟨true, some json⟩
  | none =>
    if (sortedSafelist icons).isEmpty then ⟨false, none⟩
    else ⟨true, some json⟩

/-- The environment of one `getMaterialIconsData` call: the outcomes of
the remote fetches, the local cache contents, and whether persisting the
cache succeeds.  A fetch that fails over the network or yields unparsable
JSON is an `error`. -/
structure StoreEnv where
  fetchVersion : Except Unit String
  cachedVersion : Option String
  cachedData : Option MaterialIconsData
  fetchLanguageMap : Except Unit LanguageMap
  fetchMaterialIcons : Except Unit MaterialIcons
  writeOk : Bool
deriving Repr

/-- Whether a modelled fetch failed. -/
def fetchFailed {α : Type} : Except Unit α → Bool
  | Except.error _ => true
  | Except.ok _ => false

/-- `getMaterialIconsData` from `material-icons.ts`, with the module-level
memo (`cachedData`) and the I/O environment passed explicitly: any failure
escaping the `try` block (version fetch, table fetch, cache write) lands
in the `catch` and produces `undefined` (`none`); the local cache is used
only when the fetched version matches the cached one. -/
def getMaterialIconsData (memo : Option MaterialIconsData) (env : StoreEnv) :
    Option MaterialIconsData :=
  match memo with
  | some d => some d
  | none =>
    match env.fetchVersion with
    | Except.error _ => none
    | Except.ok vRaw =>
      let currentVersion := jsTrim vRaw
      let cacheHit : Option MaterialIconsData :=
        if some currentVersion = env.cachedVersion then env.cachedData else none
      match cacheHit with
      | some d => some d
      | none =>
        match env.fetchLanguageMap, env.fetchMaterialIcons with
        | Except.ok lm, Except.ok mi =>
          if env.writeOk then some ⟨lm, mi⟩ else none
        | _, _ => none

/-- Following the specification's wording for directory detection:
whether the scanner loop skips a line (it is not a `- ` list line, or its
normalized entry name is empty or an ellipsis placeholder).  Used only to
compare the spec's phrasing against the code's behaviour. -/
def skippedLine (line : TreeLine) : Bool :=
  !jsStartsWith line.content "- " ||
    (normalizeFileTreeEntry (rawEntryOf line.content) = ""
      || normalizeFileTreeEntry (rawEntryOf line.content) = "..."
      || normalizeFileTreeEntry (rawEntryOf line.content) = mojibakeEllipsis)

/-- The first non-skipped line of a list. -/
def firstNonSkipped : List TreeLine → Option TreeLine
  | [] => none
  | l :: ls => if skippedLine l then firstNonSkipped ls else some l

/-- Following the specification's wording: an entry is a directory exactly
when its normalized name ends with a path separator or the next
non-skipped line is indented deeper than the current line.  Used only to
compare the spec's phrasing against the code's behaviour. -/
def specDirCond (lines : List TreeLine) (i : Nat) : Bool :=
  match lines[i]? with
  | none => false
  | some line =>
    jsEndsWith (normalizeFileTreeEntry (rawEntryOf line.content)) "/" ||
      (match firstNonSkipped (lines.drop (i + 1)) with
       | some nl => decide (line.indentation < nl.indentation)
       | none => false)

/-- Icon data with every table empty. -/
def emptyData : MaterialIconsData :=
  ⟨⟨[]⟩, ⟨[], [], [], [], [], []⟩⟩

/-- Icon data with an extension-table entry for `md`, mirroring the
override-precedence example of the spec. -/
def mdTableData : MaterialIconsData :=
  ⟨⟨[]⟩, ⟨["markdown"], [("md", "markdown")], [], [], [], []⟩⟩

/-- Icon data with an extension-table entry for `js`, used to exhibit the
`.svelte.js` special case firing before the extension table. -/
def svelteCxData : MaterialIconsData :=
  ⟨⟨[]⟩, ⟨["javascript"], [("js", "javascript")], [], [], [], []⟩⟩

/-- Icon data whose extension-table entry names an icon that has no
definition in the icon-definition table. -/
def missingDefData : MaterialIconsData :=
  ⟨⟨[]⟩, ⟨[], [("qqq", "ghost_icon")], [], [], [], []⟩⟩

/-- Icon data where both an exact file-name entry and an extension entry
match `readme.md`, with different icon names. -/
def namePriorityData : MaterialIconsData :=
  ⟨⟨[]⟩, ⟨["readme_x", "markdown"], [("md", "markdown")],
    [("readme.md", "readme_x")], [], [], []⟩⟩

/-- Icon data with a long-extension entry for `tar.gz`. -/
def tarData : MaterialIconsData :=
  ⟨⟨[]⟩, ⟨["folder_archive"], [("tar.gz", "folder_archive")], [], [], [], []⟩⟩

/-- Icon data whose expanded and collapsed folder tables hold different
icon names for `src` that collapse to the same class after
underscore-to-hyphen normalization. -/
def folderCxData : MaterialIconsData :=
  ⟨⟨[]⟩, ⟨["a_b", "a-b"], [], [], [("src", "a-b")], [("src", "a_b")], []⟩⟩

/-- A store environment in which every network fetch fails and no local
cache exists. -/
def storeEnvFail : StoreEnv :=
  ⟨Except.error (), none, none, Except.error (), Except.error (), true⟩

/-! ## Helper lemmas -/

theorem resolveIcon_of_customStage
    (customIcons : Option (List (String × String)))
    (fileName language : Option String) (data : Option MaterialIconsData)
    (v : String) (h : customStage customIcons fileName = some v) :
    resolveIcon customIcons fileName language data = some v := by
  unfold resolveIcon
  rw [h]

theorem customStage_some (ci : List (String × String)) (fn : String)
    (hfn : fn ≠ "") :
    customStage (some ci) (some fn) = resolveCustomFile ci fn := by
  simp [customStage, hfn]

theorem resolveFolderIcon_of_customFolderStage
    (customIcons : Option (List (String × String))) (folderName : String)
    (isOpen : Bool) (data : Option MaterialIconsData) (v : String)
    (h : customFolderStage customIcons isOpen (normFolderName folderName) = some v) :
    resolveFolderIcon customIcons folderName isOpen data = some v := by
  unfold resolveFolderIcon
  simp only [h]

theorem probePair_some (defs : List String) (lookup : List (String × String))
    (key name : String) (hrec : recGetT lookup key = some name)
    (hdef : defs.contains name = true) :
    probePair defs lookup key = some (materialClass name) := by
  unfold probePair
  rw [hrec]
  dsimp only
  rw [if_pos hdef]

/-! ## Claims -/

/-- C1: when the custom-override map holds a truthy entry for the
lowercase (base) file name, for the long extension, or for the short
extension, `resolveIcon` returns that override value immediately and
identically for every state of the icon data store, and the three keys
are tried exactly in the order full name, long extension, short
extension.  (A JS record entry counts only when its key is non-empty and
its value is a non-empty string; for a path-like input the name after the
last `/` is the file name used.) -/
theorem resolveIcon_custom_override_order
    (ci : List (String × String)) (fn : String) (lang : Option String)
    (data : Option MaterialIconsData) (v : String) (hfn : fn ≠ "") :
    (lowerBaseName fn ≠ "" → recGetT ci (lowerBaseName fn) = some v →
       resolveIcon (some ci) (some fn) lang data = some v)
    ∧ (keyHitCI ci (lowerBaseName fn) = none →
       longExtension (lowerBaseName fn) ≠ "" →
       recGetT ci (longExtension (lowerBaseName fn)) = some v →
       resolveIcon (some ci) (some fn) lang data = some v)
    ∧ (keyHitCI ci (lowerBaseName fn) = none →
       keyHitCI ci (longExtension (lowerBaseName fn)) = none →
       shortExtension (lowerBaseName fn) ≠ "" →
       recGetT ci (shortExtension (lowerBaseName fn)) = some v →
       resolveIcon (some ci) (some fn) lang data = some v) := by
  refine ⟨fun h0 h1 => ?_, fun h0 h1 h2 => ?_, fun h0 h1 h2 h3 => ?_⟩
  · have hk : keyHitCI ci (lowerBaseName fn) = some v := by
      unfold keyHitCI; rw [if_neg h0]; exact h1
    refine resolveIcon_of_customStage _ _ _ _ _ ?_
    rw [customStage_some ci fn hfn]
    unfold resolveCustomFile
    rw [hk]
  · have hk : keyHitCI ci (longExtension (lowerBaseName fn)) = some v := by
      unfold keyHitCI; rw [if_neg h1]; exact h2
    refine resolveIcon_of_customStage _ _ _ _ _ ?_
    rw [customStage_some ci fn hfn]
    unfold resolveCustomFile
    rw [h0, hk]
  · have hk : keyHitCI ci (shortExtension (lowerBaseName fn)) = some v := by
      unfold keyHitCI; rw [if_neg h2]; exact h3
    refine resolveIcon_of_customStage _ _ _ _ _ ?_
    rw [customStage_some ci fn hfn]
    unfold resolveCustomFile
    rw [h0, h1, hk]

/-- C1 witness: with an override for key `md` and a table entry for
extension `md`, resolving `readme.md` yields the override value. -/
theorem resolveIcon_custom_override_order_witness :
    resolveIcon (some [("md", "i-custom:md")]) (some "readme.md") none
      (some mdTableData) = some "i-custom:md" :=
  (resolveIcon_custom_override_order [("md", "i-custom:md")] "readme.md" none
      (some mdTableData) "i-custom:md" (by decide)).2.1
    (by decide) (by decide) (by decide)

/-- C10: custom-override resolution does not consult the icon data store:
whenever the file key loop (or the `folder:`/`folder-open:` key) matches,
`resolveIcon` and `resolveFolderIcon` return the override value for every
data-store state, including a completely unavailable one. -/
theorem override_independent_of_data :
    (∀ (ci : List (String × String)) (fn : String) (lang : Option String)
       (v : String) (data : Option MaterialIconsData), fn ≠ "" →
       resolveCustomFile ci fn = some v →
       resolveIcon (some ci) (some fn) lang data = some v)
    ∧ (∀ (ci : List (String × String)) (name : String) (isOpen : Bool)
       (v : String) (data : Option MaterialIconsData),
       recGetT ci ((if isOpen then "folder-open" else "folder") ++ ":"
           ++ normFolderName name) = some v →
       resolveFolderIcon (some ci) name isOpen data = some v) := by
  constructor
  · intro ci fn lang v data hfn h
    refine resolveIcon_of_customStage _ _ _ _ _ ?_
    rw [customStage_some ci fn hfn]
    exact h
  · intro ci name isOpen v data h
    exact resolveFolderIcon_of_customFolderStage _ _ _ _ _ h

/-- C10 witness: both overrides are returned with the data store entirely
unavailable. -/
theorem override_independent_of_data_witness :
    resolveIcon (some [("md", "i-custom:md")]) (some "readme.md") none none
      = some "i-custom:md"
    ∧ resolveFolderIcon (some [("folder:src", "i-custom:folder-src")]) "src"
        false none = some "i-custom:folder-src" :=
  ⟨override_independent_of_data.1 [("md", "i-custom:md")] "readme.md" none
      "i-custom:md" none (by decide) (by decide),
   override_independent_of_data.2 [("folder:src", "i-custom:folder-src")] "src"
      false "i-custom:folder-src" none (by decide)⟩

/-- C8: a fenced code block whose language tag is the shell marker `sh`
produces no icon lookup result and contributes no icon class to the
safelist, whatever its title, override map, or data-store state. -/
theorem shell_blocks_contribute_nothing :
    ∀ (customIcons : Option (List (String × String)))
      (data : Option MaterialIconsData) (title : Option String),
      getIconDetails customIcons title (some "sh") data = none
      ∧ codeBlockContribution customIcons data title (some "sh") = none := by
  intro customIcons data title
  constructor
  · simp [getIconDetails]
  · simp [codeBlockContribution, getIconDetails]

/-- C2 counterexample: with a file name supplied, no custom override and
no probe resolving anything (the data store is unavailable), `resolveIcon`
returns `null`, not the `document` fallback the claim requires for every
unresolvable input with a file name. -/
theorem resolveIcon_fallback_counterexample :
    resolveIcon none (some "main.xyz") none none = none
    ∧ resolveIcon none (some "main.xyz") none none
        ≠ some "i-material-icon-theme:document" := by
  decide

/-- C2 (amended): when neither a (non-empty) file name nor a (non-empty)
language is supplied, `resolveIcon` returns `null` whatever the data
store holds; and when the icon data is available, a file name or language
is supplied, and neither the custom-override stage, the special-cased
svelte extensions, the table probes with the dot-prefixed retry, nor the
language-id probe resolves, the result is the `document` fallback class.
(When the data store is unavailable and no override matches, the result
is `null`.) -/
theorem resolveIcon_default_fallback :
    (∀ (customIcons : Option (List (String × String)))
       (fileName language : Option String) (data : Option MaterialIconsData),
       truthyStr fileName = false → truthyStr language = false →
       resolveIcon customIcons fileName language data = none)
    ∧ (∀ (customIcons : Option (List (String × String)))
       (fileName language : Option String) (d : MaterialIconsData),
       (truthyStr fileName || truthyStr language) = true →
       customStage customIcons fileName = none →
       svelteStage fileName = none →
       fileStage d fileName = none →
       langStage d language = none →
       resolveIcon customIcons fileName language (some d)
         = some "i-material-icon-theme:document") := by
  constructor
  · intro customIcons fileName language data hf hl
    have hc : customStage customIcons fileName = none := by
      cases fileName with
      | none => cases customIcons <;> rfl
      | some fn =>
        have hfn : fn = "" := by simpa [truthyStr] using hf
        cases customIcons with
        | none => rfl
        | some ci => simp [customStage, hfn]
    unfold resolveIcon
    rw [hc]
    cases data with
    | none => rfl
    | some d => simp [hf, hl]
  · intro customIcons fileName language d ht hc hsv hfs hls
    have hcond : (!truthyStr fileName && !truthyStr language) = false := by
      cases htf : truthyStr fileName <;> cases htl : truthyStr language <;>
        simp_all
    unfold resolveIcon
    simp [hc, hcond, hsv, hfs, hls]

/-- C2 witness: an unknown extension with empty tables falls back to the
`document` class, and a call with neither input returns `null`. -/
theorem resolveIcon_default_fallback_witness :
    resolveIcon none (some "zzz.qqq") none (some emptyData)
      = some "i-material-icon-theme:document"
    ∧ resolveIcon none none none (some emptyData) = none :=
  ⟨resolveIcon_default_fallback.2 none (some "zzz.qqq") none emptyData
      (by decide) (by decide) (by decide) (by decide) (by decide),
   resolveIcon_default_fallback.1 none none none (some emptyData)
      (by decide) (by decide)⟩

/-- C3 counterexample: three inputs whose extensions are present in the
File-Extension Map but whose result is not the class the claim promises:
the `.svelte.js` special case fires first with a non-material class; an
icon name missing from the Icon Definition Table falls through to the
`document` fallback; an exact file-name hit wins with a different icon
name; and a custom override wins with an arbitrary class. -/
theorem resolveIcon_extension_counterexample :
    (resolveIcon none (some "a.svelte.js") none (some svelteCxData)
        = some "i-starlight-plugin-icons:svelte-js"
      ∧ recGetT svelteCxData.materialIcons.fileExtensions "js" = some "javascript"
      ∧ jsStartsWith "i-starlight-plugin-icons:svelte-js" "i-material-icon-theme:"
          = false)
    ∧ (resolveIcon none (some "b.qqq") none (some missingDefData)
        = some "i-material-icon-theme:document"
      ∧ recGetT missingDefData.materialIcons.fileExtensions "qqq" = some "ghost_icon"
      ∧ missingDefData.materialIcons.iconDefinitions.contains "ghost_icon" = false)
    ∧ (resolveIcon none (some "readme.md") none (some namePriorityData)
        = some "i-material-icon-theme:readme-x"
      ∧ recGetT namePriorityData.materialIcons.fileExtensions "md" = some "markdown"
      ∧ "i-material-icon-theme:readme-x" ≠ materialClass "markdown")
    ∧ resolveIcon (some [("md", "i-custom:md")]) (some "readme.md") none
        (some mdTableData) = some "i-custom:md" := by
  decide

/-- C3 (amended): given available icon data, no custom-override hit, a
name not ending in `.svelte.js`/`.svelte.ts`, no exact file-name hit, and
an extension entry (long first, else short) whose icon name exists in the
Icon Definition Table, `resolveIcon` returns
`i-material-icon-theme:<name>` with every underscore of the table's icon
name replaced by a hyphen. -/
theorem resolveIcon_extension_class
    (customIcons : Option (List (String × String))) (fn : String)
    (lang : Option String) (d : MaterialIconsData) (name : String)
    (hc : customStage customIcons (some fn) = none)
    (hsv : svelteStage (some fn) = none)
    (hfn : fn ≠ "")
    (hnames : probePair d.materialIcons.iconDefinitions
        d.materialIcons.fileNames (lowerBaseName fn) = none)
    (hext :
      (recGetT d.materialIcons.fileExtensions
          (longExtension (lowerBaseName fn)) = some name
        ∧ d.materialIcons.iconDefinitions.contains name = true)
      ∨ (probePair d.materialIcons.iconDefinitions
          d.materialIcons.fileExtensions (longExtension (lowerBaseName fn)) = none
        ∧ recGetT d.materialIcons.fileExtensions
            (shortExtension (lowerBaseName fn)) = some name
        ∧ d.materialIcons.iconDefinitions.contains name = true)) :
    resolveIcon customIcons (some fn) lang (some d)
      = some ("i-material-icon-theme:" ++ underscoreToHyphen name) := by
  have hprobe : fileProbe d (lowerBaseName fn)
      = some (materialClass name) := by
    unfold fileProbe
    rw [hnames]
    dsimp only
    rcases hext with ⟨hrec, hdef⟩ | ⟨hlong, hrec, hdef⟩
    · rw [probePair_some _ _ _ _ hrec hdef]
    · rw [hlong]
      dsimp only
      rw [probePair_some _ _ _ _ hrec hdef]
  have hfs : fileStage d (some fn) = some (materialClass name) := by
    unfold fileStage
    simp [hfn, hprobe]
  have ht : truthyStr (some fn) = true := by simp [truthyStr, hfn]
  unfold resolveIcon
  simp [hc, ht, hsv, hfs]
  rfl

/-- C3 witness: `x.tar.gz` resolves through the long-extension entry
`tar.gz -> folder_archive` to `i-material-icon-theme:folder-archive`. -/
theorem resolveIcon_extension_class_witness :
    resolveIcon none (some "x.tar.gz") none (some tarData)
      = some ("i-material-icon-theme:" ++ underscoreToHyphen "folder_archive") :=
  resolveIcon_extension_class none "x.tar.gz" none tarData "folder_archive"
    (by decide) (by decide) (by decide) (by decide)
    (Or.inl ⟨by decide, by decide⟩)

/-- C4 counterexample: with expanded entry `a_b` and collapsed entry
`a-b` for `src` — distinct table entries — the open and closed
resolutions coincide after underscore-to-hyphen normalization; and with
the data store unavailable the fallback is `undefined`, not the theme
default the claim promises. -/
theorem resolveFolderIcon_counterexample :
    (resolveFolderIcon none "src" true (some folderCxData)
        = resolveFolderIcon none "src" false (some folderCxData)
      ∧ recGetT folderCxData.materialIcons.folderNamesExpanded "src" = some "a_b"
      ∧ recGetT folderCxData.materialIcons.folderNames "src" = some "a-b"
      ∧ "a_b" ≠ "a-b")
    ∧ resolveFolderIcon none "src" true none = none := by
  decide

/-- C4 (amended): `resolveFolderIcon` first returns a custom override
keyed `folder-open:<name>` (open) or `folder:<name>` (closed) when one
exists, for every data-store state; otherwise, with icon data available,
it probes the expanded or collapsed Folder-Name Map according to the
flag; the open and closed resolutions are distinct whenever the two table
probes yield distinct icon classes (entries that differ after
underscore-to-hyphen normalization); and each falls back to its
theme-specific default class when its table probe misses. -/
theorem resolveFolderIcon_resolution :
    (∀ (ci : List (String × String)) (name : String) (v : String)
       (data : Option MaterialIconsData),
       recGetT ci ("folder-open" ++ ":" ++ normFolderName name) = some v →
       resolveFolderIcon (some ci) name true data = some v)
    ∧ (∀ (ci : List (String × String)) (name : String) (v : String)
       (data : Option MaterialIconsData),
       recGetT ci ("folder" ++ ":" ++ normFolderName name) = some v →
       resolveFolderIcon (some ci) name false data = some v)
    ∧ (∀ (name : String) (d : MaterialIconsData) (co cc : String),
       folderStage d true (normFolderName name) = some co →
       folderStage d false (normFolderName name) = some cc →
       co ≠ cc →
       resolveFolderIcon none name true (some d)
         ≠ resolveFolderIcon none name false (some d))
    ∧ (∀ (name : String) (d : MaterialIconsData),
       folderStage d true (normFolderName name) = none →
       resolveFolderIcon none name true (some d)
         = some "i-starlight-plugin-icons:folder-open")
    ∧ (∀ (name : String) (d : MaterialIconsData),
       folderStage d false (normFolderName name) = none →
       resolveFolderIcon none name false (some d)
         = some "i-starlight-plugin-icons:folder") := by
  have hopen : ∀ (name : String) (d : MaterialIconsData),
      resolveFolderIcon none name true (some d)
        = (match folderStage d true (normFolderName name) with
           | some c => some c
           | none => some "i-starlight-plugin-icons:folder-open") := by
    intro name d
    unfold resolveFolderIcon customFolderStage
    rfl
  have hclosed : ∀ (name : String) (d : MaterialIconsData),
      resolveFolderIcon none name false (some d)
        = (match folderStage d false (normFolderName name) with
           | some c => some c
           | none => some "i-starlight-plugin-icons:folder") := by
    intro name d
    unfold resolveFolderIcon customFolderStage
    rfl
  refine ⟨?_, ?_, ?_, ?_, ?_⟩
  · intro ci name v data h
    exact resolveFolderIcon_of_customFolderStage _ _ _ _ _ (by simpa [customFolderStage] using h)
  · intro ci name v data h
    exact resolveFolderIcon_of_customFolderStage _ _ _ _ _ (by simpa [customFolderStage] using h)
  · intro name d co cc ho hc hne
    rw [hopen, hclosed, ho, hc]
    simpa using hne
  · intro name d h
    rw [hopen, h]
  · intro name d h
    rw [hclosed, h]

/-- C4 witness: with empty folder tables both flags fall back to the
theme-specific defaults, and a `folder-open:` override is returned for
the open flag. -/
theorem resolveFolderIcon_resolution_witness :
    resolveFolderIcon none "src" true (some emptyData)
      = some "i-starlight-plugin-icons:folder-open"
    ∧ resolveFolderIcon none "src" false (some emptyData)
      = some "i-starlight-plugin-icons:folder"
    ∧ resolveFolderIcon (some [("folder-open:docs", "i-x:open-docs")]) "docs"
        true none = some "i-x:open-docs" :=
  ⟨resolveFolderIcon_resolution.2.2.2.1 "src" emptyData (by decide),
   resolveFolderIcon_resolution.2.2.2.2 "src" emptyData (by decide),
   resolveFolderIcon_resolution.1 [("folder-open:docs", "i-x:open-docs")]
      "docs" "i-x:open-docs" none (by decide)⟩

/-- C5: the persistence step of `generateSafelist` is idempotent over
unchanged inputs: a byte-identical previous file reports unchanged with
no write; a missing previous file with an empty safelist reports
unchanged and creates no file; every other case writes the sorted,
deduplicated serialization and reports changed; and re-running with the
same icons on the state left by any run reports unchanged and leaves the
file byte-identical. -/
theorem generateSafelist_idempotent :
    (∀ (icons : List String) (prev : Option String),
       prev = some (serializeSafelist icons) →
       runSafelist icons prev = ⟨false, prev⟩)
    ∧ (∀ icons : List String, sortedSafelist icons = [] →
       runSafelist icons none = ⟨false, none⟩)
    ∧ (∀ (icons : List String) (cur : String),
       cur ≠ serializeSafelist icons →
       runSafelist icons (some cur) = ⟨true, some (serializeSafelist icons)⟩)
    ∧ (∀ icons : List String, sortedSafelist icons ≠ [] →
       runSafelist icons none = ⟨true, some (serializeSafelist icons)⟩)
    ∧ (∀ (icons : List String) (prev : Option String),
       runSafelist icons (runSafelist icons prev).file
         = ⟨false, (runSafelist icons prev).file⟩) := by
  refine ⟨?_, ?_, ?_, ?_, ?_⟩
  · intro icons prev h
    subst h
    simp [runSafelist]
  · intro icons h
    simp [runSafelist, h]
  · intro icons cur h
    simp [runSafelist, h]
  · intro icons h
    simp [runSafelist, List.isEmpty_iff, h]
  · intro icons prev
    cases prev with
    | none =>
      by_cases h : (sortedSafelist icons).isEmpty <;> simp [runSafelist, h]
    | some cur =>
      by_cases h : cur = serializeSafelist icons <;> simp [runSafelist, h]

/-- C5 witness: rerunning on the file produced by serializing the same
icons reports unchanged and leaves the contents untouched. -/
theorem generateSafelist_idempotent_witness :
    runSafelist ["i-material-icon-theme:document"]
        (some (serializeSafelist ["i-material-icon-theme:document"]))
      = ⟨false, some (serializeSafelist ["i-material-icon-theme:document"])⟩ :=
  generateSafelist_idempotent.1 ["i-material-icon-theme:document"] _ rfl

/-- C6 counterexample: in `- index.ts` followed by a deeper-indented
non-list line, the scanner classifies `index.ts` as a directory (the code
compares against the immediately following line, skipped or not), while
the claim's next-non-skipped-line reading classifies it as a file. -/
theorem treeDir_claim_counterexample :
    classifyLine (parseTreeLines "- index.ts\n    note") 0
      = some ("index.ts", true)
    ∧ specDirCond (parseTreeLines "- index.ts\n    note") 0 = false := by
  decide

/-- C6 (amended): a qualifying tree entry is classified as a directory
exactly when its normalized name ends with `/`, or the immediately
following line of the block — whether or not that line is itself skipped
— is indented strictly deeper than the current line. -/
theorem treeDir_classification (lines : List TreeLine) (i : Nat)
    (line : TreeLine) (name : String) (isDir : Bool)
    (hline : lines[i]? = some line)
    (hclass : classifyLine lines i = some (name, isDir)) :
    isDir = (jsEndsWith name "/" ||
      (match lines[i + 1]? with
       | some nl => decide (line.indentation < nl.indentation)
       | none => false)) := by
  unfold classifyLine at hclass
  rw [hline] at hclass
  dsimp only at hclass
  split at hclass
  · exact absurd hclass (by simp)
  · split at hclass
    · exact absurd hclass (by simp)
    · have h := hclass
      simp only [Option.some.injEq, Prod.mk.injEq] at h
      obtain ⟨hn, hd⟩ := h
      subst hn
      rw [← hd]
      rfl

/-- C6 witness: `utils` followed by a more-indented list line is
classified as a directory, matching the local condition. -/
theorem treeDir_classification_witness :
    (true : Bool) = (jsEndsWith "utils" "/" ||
      (match ([⟨0, "- utils"⟩, ⟨2, "- a.ts"⟩] : List TreeLine)[0 + 1]? with
       | some nl => decide ((⟨0, "- utils"⟩ : TreeLine).indentation < nl.indentation)
       | none => false)) :=
  treeDir_classification [⟨0, "- utils"⟩, ⟨2, "- a.ts"⟩] 0 ⟨0, "- utils"⟩
    "utils" true (by decide) (by decide)

/-- C7: `getMaterialIconsData` converts every failure into the
unavailable-data signal and never loads one table without the other: a
version-fetch failure yields `none`; a table-fetch failure with no usable
local cache yields `none`; and any returned data comes whole from the
in-run memo, from the local cache, or from the two successful fetches
together. -/
theorem getMaterialIconsData_unavailable_on_failure :
    (∀ env : StoreEnv, fetchFailed env.fetchVersion = true →
       getMaterialIconsData none env = none)
    ∧ (∀ env : StoreEnv,
       (fetchFailed env.fetchLanguageMap = true
         ∨ fetchFailed env.fetchMaterialIcons = true) →
       (∀ v, env.fetchVersion = Except.ok v →
          some (jsTrim v) = env.cachedVersion → env.cachedData = none) →
       getMaterialIconsData none env = none)
    ∧ (∀ (memo : Option MaterialIconsData) (env : StoreEnv)
       (d : MaterialIconsData),
       getMaterialIconsData memo env = some d →
       memo = some d ∨ env.cachedData = some d
       ∨ (env.fetchLanguageMap = Except.ok d.languageMap
          ∧ env.fetchMaterialIcons = Except.ok d.materialIcons)) := by
  refine ⟨?_, ?_, ?_⟩
  · intro env h
    obtain ⟨fv, cv, cd, fl, fm, wo⟩ := env
    cases fv with
    | error e => rfl
    | ok v => exact absurd h (by simp [fetchFailed])
  · intro env hfail hcache
    obtain ⟨fv, cv, cd, fl, fm, wo⟩ := env
    cases fv with
    | error e => rfl
    | ok v =>
      unfold getMaterialIconsData
      dsimp only
      have hcd : (if some (jsTrim v) = cv then cd else none) = none := by
        by_cases hv : some (jsTrim v) = cv
        · rw [if_pos hv]
          exact hcache v rfl hv
        · rw [if_neg hv]
      rw [hcd]
      dsimp only
      rcases hfail with h | h <;> cases fl <;> cases fm <;>
        simp_all [fetchFailed]
  · intro memo env d h
    obtain ⟨fv, cv, cd, fl, fm, wo⟩ := env
    cases memo with
    | some m =>
      left
      simpa [getMaterialIconsData] using h
    | none =>
      cases fv with
      | error e => exact absurd h (by simp [getMaterialIconsData])
      | ok v =>
        unfold getMaterialIconsData at h
        dsimp only at h
        by_cases hv : some (jsTrim v) = cv
        · rw [if_pos hv] at h
          cases hcd : cd with
          | some dc =>
            rw [hcd] at h
            dsimp only at h
            right; left
            exact h
          | none =>
            rw [hcd] at h
            dsimp only at h
            cases fl with
            | error e => exact absurd h (by simp)
            | ok lm =>
              cases fm with
              | error e => exact absurd h (by simp)
              | ok mi =>
                dsimp only at h
                by_cases hw : wo = true
                · rw [if_pos hw] at h
                  right; right
                  have hd : (⟨lm, mi⟩ : MaterialIconsData) = d := by
                    simpa using h
                  subst hd
                  exact ⟨rfl, rfl⟩
                · rw [if_neg hw] at h
                  exact absurd h (by simp)
        · rw [if_neg hv] at h
          dsimp only at h
          cases fl with
          | error e => exact absurd h (by simp)
          | ok lm =>
            cases fm with
            | error e => exact absurd h (by simp)
            | ok mi =>
              dsimp only at h
              by_cases hw : wo = true
              · rw [if_pos hw] at h
                right; right
                have hd : (⟨lm, mi⟩ : MaterialIconsData) = d := by
                  simpa using h
                subst hd
                exact ⟨rfl, rfl⟩
              · rw [if_neg hw] at h
                exact absurd h (by simp)

/-- C7 witness: with every fetch failing and no cache, the store reports
unavailable data. -/
theorem getMaterialIconsData_unavailable_witness :
    getMaterialIconsData none storeEnvFail = none :=
  getMaterialIconsData_unavailable_on_failure.1 storeEnvFail rfl

/-- C9: a tree line whose normalized entry name is empty, the ASCII
ellipsis, or the corrupted-encoding ellipsis is skipped: it is never
classified and contributes no icon class, whatever the override map and
data-store state. -/
theorem treeEllipsis_no_contribution (lines : List TreeLine) (i : Nat)
    (line : TreeLine) (hline : lines[i]? = some line)
    (hent : normalizeFileTreeEntry (rawEntryOf line.content) = ""
          ∨ normalizeFileTreeEntry (rawEntryOf line.content) = "..."
          ∨ normalizeFileTreeEntry (rawEntryOf line.content) = mojibakeEllipsis) :
    classifyLine lines i = none
    ∧ ∀ (customIcons : Option (List (String × String)))
        (data : Option MaterialIconsData),
        treeLineIcons customIcons data lines i = [] := by
  have hcl : classifyLine lines i = none := by
    rcases hent with h | h | h <;> simp [classifyLine, hline, h]
  refine ⟨hcl, fun customIcons data => ?_⟩
  unfold treeLineIcons
  rw [hcl]

/-- C9 witness: the line `- ...` is skipped and contributes nothing. -/
theorem treeEllipsis_no_contribution_witness :
    classifyLine [⟨0, "- ..."⟩] 0 = none
    ∧ treeLineIcons none none [⟨0, "- ..."⟩] 0 = [] := by
  have h := treeEllipsis_no_contribution [⟨0, "- ..."⟩] 0 ⟨0, "- ..."⟩
    (by decide) (Or.inr (Or.inl (by decide)))
  exact ⟨h.1, h.2 none none⟩

end StarlightIcons
